import Mathlib

/-!
Verification of the FleetLedger security-and-correctness core against its
specification.  The Python sources (app/utils.py, app/auth.py, app/main.py,
fleetledger/app/models.py) are shallowly embedded below: pure helpers become
Lean functions, request handlers become explicit state-passing functions on a
database value, and code that can raise an uncaught Python exception returns
an `Except` value.  Machine floats are modelled by their exact decimal value
(a natural mantissa and a power-of-ten scale); this is exact for every input
whose value and products are representable, which covers every input used in
the claims.  Python strings are modelled by Lean strings; `str.lower`,
`str.strip`, `str.startswith` and single-character `str.replace` are
re-implemented over the character list so that all definitions evaluate
inside the kernel.
-/

/-- Models Python `str.lower()` (ASCII case folding; the handful of non-ASCII
code points Python folds differently cannot influence any of the embedded
functions, which only inspect ASCII characters). -/
def pyLower (s : String) : String :=
  String.mk (s.data.map Char.toLower)

/-- Models Python `str.strip()` with no argument: remove leading and trailing
whitespace. -/
def pyStrip (s : String) : String :=
  String.mk (((s.data.dropWhile Char.isWhitespace).reverse.dropWhile Char.isWhitespace).reverse)

/-- Models Python `str.startswith(pre)`. -/
def pyStartsWith (s pre : String) : Bool :=
  decide (s.data.take pre.data.length = pre.data)

/-- Models Python `value.replace(",", ".")` (all occurrences of the
single-character pattern are replaced). -/
def pyReplaceCommaDot (s : String) : String :=
  String.mk (s.data.map (fun c => if c = ',' then '.' else c))

/-! CSRF helpers, from app/utils.py.  `secrets.compare_digest` is embedded as
the classic constant-time comparison: it walks every zipped character pair,
accumulating the bitwise OR of the XORs, with no early exit. -/

/-- Accumulator walk of the constant-time comparison: OR of the XOR of every
aligned pair of character codes.  The fold always traverses the whole zipped
list; there is no early exit on a mismatching position. -/
def cdOrXor (ps : List (Char × Char)) : Nat :=
  ps.foldl (fun acc p => acc ||| (p.1.toNat ^^^ p.2.toNat)) 0

/-- The boolean core of `secrets.compare_digest` on two ASCII strings: true
iff the lengths agree and every aligned pair of character codes XORs to
zero.  CPython only reaches this comparison for ASCII arguments; the full
model with the `TypeError` raised on non-ASCII input is `compare_digest_py`
below, and the two agree on ASCII inputs. -/
def compare_digest (a b : String) : Bool :=
  decide (a.length = b.length) && decide (cdOrXor (a.data.zip b.data) = 0)

/-- Number of pair comparisons `compare_digest` performs: the length of the
zipped list, a function of the two lengths alone (never of the contents). -/
def compare_digest_steps (a b : String) : Nat :=
  (a.data.zip b.data).length

/-- True when every character of the string is ASCII (code point below
128). -/
def isAsciiStr (s : String) : Bool :=
  s.data.all (fun c => decide (c.toNat < 128))

/-- Models `secrets.compare_digest` on two Python `str` arguments faithfully:
CPython raises `TypeError` ("comparing strings with non-ASCII characters is
not supported") when either argument contains a non-ASCII character, and
otherwise performs the constant-time comparison. -/
def compare_digest_py (a b : String) : Except Unit Bool :=
  if isAsciiStr a && isAsciiStr b then Except.ok (compare_digest a b)
  else Except.error ()

/-- Boolean form of `validate_csrf` (app/utils.py lines 119-126), defined on
the comparison's ASCII domain.  The session is modelled by the value stored
under the csrf key: `none` when the key is absent.  Python's `not stored` is
also true for an empty stored string.  The stored token is `token_urlsafe`
output and hence always ASCII; the handler embeddings below consume this
boolean form, and `validate_csrf_py` is the full model whose error value is
the uncaught `TypeError` escaping on a non-ASCII supplied token. -/
def validate_csrf (stored : Option String) (token : String) : Bool :=
  match stored with
  | none => false
  | some s => if s = "" then false else if token = "" then false else compare_digest s token

/-- Models `validate_csrf` (app/utils.py lines 119-126) faithfully,
including the `TypeError` that `secrets.compare_digest` raises on a
non-ASCII argument and that `validate_csrf` does not catch: the error value
is that exception escaping to the caller. -/
def validate_csrf_py (stored : Option String) (token : String) : Except Unit Bool :=
  match stored with
  | none => Except.ok false
  | some s =>
    if s = "" then Except.ok false
    else if token = "" then Except.ok false
    else compare_digest_py s token

/-! Secret cipher, from app/utils.py.  The third-party Fernet primitive is
not part of this repository. -/

/-- Modelled from the spec: the version header of a Fernet token (section 4.2
describes an authenticated, versioned ciphertext token). -/
def fernetHeader : List Char :=
  ['g', 'A', 'A', 'A', 'A', 'A', '.']

/-- Modelled from the spec: Fernet encryption with the configured key, an
authenticated token encoding that `fernetDecrypt` inverts.  Confidentiality
is not representable in a functional model, so the token is an injective
encoding of the plaintext behind the version header. -/
def fernetEncrypt (s : String) : String :=
  String.mk (fernetHeader ++ s.data)

/-- Modelled from the spec: Fernet decryption.  A token that does not carry
the version header fails authentication; per section 4.2 a malformed, corrupt
or foreign token is a normal negative outcome, `none` here (the Python
wrapper catches `InvalidToken` and `ValueError`, which also covers the
encode/decode errors inside the `try` block). -/
def fernetDecrypt (t : String) : Option String :=
  if t.data.take 7 = fernetHeader then some (String.mk (t.data.drop 7)) else none

/-- Models `encrypt_secret` (app/utils.py lines 34-39).  `enabled` stands for
the process-wide `_f is not None` configuration fixed at startup. -/
def encrypt_secret (enabled : Bool) (plaintext : String) : Option String :=
  if plaintext = "" ∨ enabled = false then none
  else some (fernetEncrypt plaintext)

/-- Models `decrypt_secret` (app/utils.py lines 42-50): absent on an empty
token or a disabled cipher, and the `try` block turns every decryption
failure into `None`. -/
def decrypt_secret (enabled : Bool) (token : String) : Option String :=
  if token = "" ∨ enabled = false then none
  else fernetDecrypt token

/-! Unit parsers, from app/utils.py. -/

/-- ASCII digit test, as the regex class `[0-9]`. -/
def isDigitChar (c : Char) : Bool :=
  decide ('0' ≤ c ∧ c ≤ '9')

/-- Value of a list of ASCII digits. -/
def natOfDigits (ds : List Char) : Nat :=
  ds.foldl (fun acc c => acc * 10 + (c.toNat - 48)) 0

/-- Exact value of a parsed Python float literal: `(-1)^neg * mant / 10^scale`.
The IEEE rounding step of `float(...)` is not modelled; every input appearing
in the claims is exactly representable, and no claim depends on rounding. -/
structure DecimalLit where
  neg : Bool
  mant : Nat
  scale : Nat
  deriving DecidableEq

/-- Rational value of a `DecimalLit`. -/
def DecimalLit.toRat (d : DecimalLit) : ℚ :=
  (if d.neg then -1 else 1) * (d.mant : ℚ) / (10 : ℚ) ^ d.scale

/-- Models Python `float(cs)` on the plain decimal forms
`[sign] digits`, `[sign] digits . digits`, `[sign] digits .`, `[sign] . digits`:
`none` is the `ValueError` raised on any other input.  (Exponent, infinity
and nan literals, and the overflow-to-infinity of astronomically long digit
strings, are outside the model; no embedded call site can produce them from
an input that the surrounding regex has matched, except where a theorem
below exhibits exactly such a `ValueError`.) -/
def pyFloatLit (cs : List Char) : Option DecimalLit :=
  let signAndRest : Bool × List Char :=
    match cs with
    | '-' :: t => (true, t)
    | '+' :: t => (false, t)
    | _ => (false, cs)
  let neg := signAndRest.1
  let cs1 := signAndRest.2
  let intPart := cs1.takeWhile isDigitChar
  match cs1.drop intPart.length with
  | [] => if intPart = [] then none else some ⟨neg, natOfDigits intPart, 0⟩
  | '.' :: afterDot =>
    let fracPart := afterDot.takeWhile isDigitChar
    if afterDot.drop fracPart.length = [] ∧ (intPart ≠ [] ∨ fracPart ≠ []) then
      some ⟨neg, natOfDigits intPart * 10 ^ fracPart.length + natOfDigits fracPart, fracPart.length⟩
    else none
  | _ => none

/-- Models `parse_decimal` (app/utils.py lines 55-63): normalize the comma to
a dot, strip, parse as float; `ValueError` is caught and becomes `None`. -/
def parse_decimal (value : String) : Option ℚ :=
  if value = "" then none
  else (pyFloatLit (pyStrip (pyReplaceCommaDot value)).data).map DecimalLit.toRat

/-- Models the regex `([0-9]+(?:[\\.,][0-9]+)?)(unit...)?` of the two unit
parsers, applied with `re.match` (anchored at the start, trailing text
ignored).  Note that inside the raw-string character class `[\\.,]` the
escaped backslash makes a literal backslash a valid decimal separator, so
group 1 can contain a backslash.  Returns group 1 and the optional unit. -/
def regexNumberUnit (units : List String) (cs : List Char) : Option (List Char × Option String) :=
  let ds := cs.takeWhile isDigitChar
  if ds = [] then none
  else
    let rest := cs.drop ds.length
    let groupAndRest : List Char × List Char :=
      match rest with
      | c :: t =>
        if c = '.' ∨ c = ',' ∨ c = '\\' then
          let ds2 := t.takeWhile isDigitChar
          if ds2 = [] then (ds, rest) else (ds ++ c :: ds2, t.drop ds2.length)
        else (ds, rest)
      | [] => (ds, [])
    some (groupAndRest.1, units.find? (fun u => decide (groupAndRest.2.take u.data.length = u.data)))

/-- Models `int(number * factor)` where `number` is the exact value of a
non-negative decimal literal: Python `int()` truncates toward zero, which for
the non-negative values the regex can produce is the floor
`mant * factor / 10 ^ scale` in natural division.  The `neg` case is kept for
totality even though the digit-anchored regex never produces it. -/
def pyIntOfScaled (d : DecimalLit) (factor : Nat) : Int :=
  if d.neg then -(Int.ofNat (d.mant * factor / 10 ^ d.scale))
  else Int.ofNat (d.mant * factor / 10 ^ d.scale)

/-- Models `parse_ram_mb` (app/utils.py lines 66-83).  The `Except` layer
carries the uncaught `ValueError` that `float(...)` raises when group 1
contains a backslash separator. -/
def parse_ram_mb (value : String) : Except Unit (Option Int) :=
  if value = "" then Except.ok none
  else
    let v := pyLower (pyStrip value)
    match regexNumberUnit [("tb"), ("gb"), ("mb")] v.data with
    | none => Except.ok none
    | some g =>
      match pyFloatLit (g.1.map (fun c => if c = ',' then '.' else c)) with
      | none => Except.error ()
      | some d =>
        let unit := g.2.getD ("gb")
        if unit = "tb" then Except.ok (some (pyIntOfScaled d (1024 * 1024)))
        else if unit = "gb" then Except.ok (some (pyIntOfScaled d 1024))
        else Except.ok (some (pyIntOfScaled d 1))

/-- Models `parse_storage_gb` (app/utils.py lines 86-101): same shape with
units tb and gb only, converting to GB. -/
def parse_storage_gb (value : String) : Except Unit (Option Int) :=
  if value = "" then Except.ok none
  else
    let v := pyLower (pyStrip value)
    match regexNumberUnit [("tb"), ("gb")] v.data with
    | none => Except.ok none
    | some g =>
      match pyFloatLit (g.1.map (fun c => if c = ',' then '.' else c)) with
      | none => Except.error ()
      | some d =>
        let unit := g.2.getD ("gb")
        if unit = "tb" then Except.ok (some (pyIntOfScaled d 1024))
        else Except.ok (some (pyIntOfScaled d 1))

/-! Contract lifecycle, from fleetledger/app/models.py.  A `date` is modelled
by its day number (an integer); `date.today()` becomes the parameter `today`,
and Python date subtraction `(end - today).days` is integer subtraction. -/

/-- Models the `Server.days_until_contract_end` property (models.py 72-84). -/
def days_until_contract_end (contract_end : Option Int) (today : Int) : Option Int :=
  match contract_end with
  | none => none
  | some e => some (e - today)

/-- Models the `Server.is_expired` property (models.py 86-89). -/
def server_is_expired (contract_end : Option Int) (today : Int) : Bool :=
  match contract_end with
  | none => false
  | some e => decide (e < today)

/-- Models the `Server.is_expiring_soon` property (models.py 91-99). -/
def server_is_expiring_soon (contract_end : Option Int) (today : Int) : Bool :=
  match days_until_contract_end contract_end today with
  | none => false
  | some d => decide (0 ≤ d ∧ d ≤ 30)

/-! Data model, from fleetledger/app/models.py, and the request handlers of
app/main.py that the claims name.  The database is a value (lists of rows);
`session.add` + `session.commit` become the returned database, so state that
is never committed (e.g. because an uncaught exception aborts the handler) is
simply not part of the result.  The per-session csrf storage enters as
`stored`; `datetime.utcnow()` enters as the integer parameter `now`; the
autoincremented primary key of an insert enters as `new_id`; the process-wide
cipher configuration enters as `enabled`. -/

/-- Calendar date as parsed by `datetime.fromisoformat(...).date()`.  Only
the `YYYY-MM-DD` core format matters to the embedded handlers, which store
the parsed value without computing on it. -/
structure IsoDate where
  year : Nat
  month : Nat
  day : Nat
  deriving DecidableEq

/-- Models `datetime.fromisoformat(s).date()` on the `YYYY-MM-DD` core
format: `none` is the `ValueError` raised on anything else. -/
def isoDateParse (s : String) : Option IsoDate :=
  match s.data.splitOn '-' with
  | [y, m, d] =>
    if y.length = 4 ∧ m.length = 2 ∧ d.length = 2 ∧
        y.all isDigitChar ∧ m.all isDigitChar ∧ d.all isDigitChar ∧
        1 ≤ natOfDigits m ∧ natOfDigits m ≤ 12 ∧ 1 ≤ natOfDigits d ∧ natOfDigits d ≤ 31 then
      some ⟨natOfDigits y, natOfDigits m, natOfDigits d⟩
    else none
  | _ => none

/-- Application user row (models.py `User`). -/
structure UserRec where
  id : Nat
  username : String
  email : Option String
  password_hash : String
  is_active : Bool
  is_admin : Bool
  deriving DecidableEq

/-- Server row (models.py `Server`).  `price` is modelled as an exact
rational; `created_at` and `updated_at` carry the `utcnow` timestamp as an
integer. -/
structure ServerRec where
  id : Nat
  owner_id : Nat
  name : String
  hostname : Option String
  type : String
  provider : String
  location : Option String
  ipv4 : Option String
  ipv6 : Option String
  billing_period : String
  price : ℚ
  currency : String
  contract_start : Option IsoDate
  contract_end : Option IsoDate
  tags : Option String
  cpu_model : Option String
  cpu_cores : Option Int
  ram_mb : Option Int
  storage_gb : Option Int
  storage_type : Option String
  mgmt_url : Option String
  mgmt_user : Option String
  mgmt_password_encrypted : Option String
  ssh_user : Option String
  ssh_key_hint : Option String
  notes : Option String
  created_at : Int
  updated_at : Int
  archived : Bool
  deriving DecidableEq

/-- The database state: the two tables. -/
structure Db where
  servers : List ServerRec
  users : List UserRec
  deriving DecidableEq

/-- Outcome of a handler: a rendered page, a redirect, or an
`HTTPException` turned into a client error response by the framework. -/
inductive Resp where
  | page (status : Nat)
  | redirect (location : String)
  | clientError (status : Nat)
  deriving DecidableEq

/-- Models the Python idiom `value or None` on a form string. -/
def strOpt (s : String) : Option String :=
  if s = "" then none else some s

/-- The form fields of the create/update server handlers (`Form(...)`
parameters of app/main.py lines 537-564 and 712-740). -/
structure ServerForm where
  name : String
  provider : String
  hostname : String
  type : String
  location : String
  ipv4 : String
  ipv6 : String
  billing_period : String
  price : String
  currency : String
  contract_start : Option String
  contract_end : Option String
  cpu_model : String
  cpu_cores : Int
  ram_mb : String
  storage_gb : String
  storage_type : String
  tags : String
  mgmt_url : String
  mgmt_user : String
  mgmt_password : String
  ssh_user : String
  ssh_key_hint : String
  notes : String
  csrf_token : String
  deriving DecidableEq

/-- Models `datetime.fromisoformat(x).date() if x else None` on an optional
form field (a missing field and an empty string are both falsy). -/
def formDate (v : Option String) : Except Unit (Option IsoDate) :=
  match v with
  | none => Except.ok none
  | some s =>
    if s = "" then Except.ok none
    else
      match isoDateParse s with
      | none => Except.error ()
      | some d => Except.ok (some d)

/-- Models the `mgmt_url` sanitization of create/update (main.py 585-591 and
764-769): strip, then blank out anything that does not start with http:// or
https:// case-insensitively. -/
def cleanMgmtUrl (mgmt_url : String) : String :=
  let c := pyStrip mgmt_url
  if c ≠ "" ∧ ¬(pyStartsWith (pyLower c) ("http://") ∨ pyStartsWith (pyLower c) ("https://")) then
    ("")
  else c

/-- Models `toggle_user_active` (main.py 325-353): csrf check first, then
fetch by primary key, self-deactivation guard, flip and commit. -/
def toggle_user_active (stored : Option String) (csrf_token : String) (user_id : Nat)
    (current_user : UserRec) (db : Db) : Db × Resp :=
  if ¬ validate_csrf stored csrf_token then (db, Resp.clientError 400)
  else
    match db.users.find? (fun u => decide (u.id = user_id)) with
    | none => (db, Resp.redirect ("/users"))
    | some user =>
      if user.id = current_user.id then (db, Resp.redirect ("/users"))
      else
        ({ db with users := db.users.map (fun u => if u.id = user_id then { user with is_active := ! user.is_active } else u) },
          Resp.redirect ("/users"))

/-- Models `archive_server` (main.py 802-828): csrf check first, then fetch,
ownership check, set `archived` and commit. -/
def archive_server (stored : Option String) (csrf_token : String) (server_id : Nat)
    (current_user : UserRec) (now : Int) (db : Db) : Db × Resp :=
  if ¬ validate_csrf stored csrf_token then (db, Resp.clientError 400)
  else
    match db.servers.find? (fun s => decide (s.id = server_id)) with
    | none => (db, Resp.redirect ("/"))
    | some server =>
      if server.owner_id ≠ current_user.id then (db, Resp.redirect ("/"))
      else
        ({ db with servers := db.servers.map (fun s => if s.id = server_id then { server with archived := true, updated_at := now } else s) },
          Resp.redirect ("/"))

/-- Models `unarchive_server` (main.py 831-853). -/
def unarchive_server (stored : Option String) (csrf_token : String) (server_id : Nat)
    (current_user : UserRec) (now : Int) (db : Db) : Db × Resp :=
  if ¬ validate_csrf stored csrf_token then (db, Resp.clientError 400)
  else
    match db.servers.find? (fun s => decide (s.id = server_id)) with
    | none => (db, Resp.redirect ("/"))
    | some server =>
      if server.owner_id ≠ current_user.id then (db, Resp.redirect ("/"))
      else
        ({ db with servers := db.servers.map (fun s => if s.id = server_id then { server with archived := false, updated_at := now } else s) },
          Resp.redirect ("/servers/archived"))

/-- Models `create_server` (main.py 537-624): csrf check first, then date
parsing (whose `ValueError` escapes as `Except.error`), field parsing (the
ram/storage parsers can also raise), secret encryption, url sanitization,
insert and commit. -/
def create_server (enabled : Bool) (stored : Option String) (f : ServerForm)
    (current_user : UserRec) (now : Int) (new_id : Nat) (db : Db) : Except Unit (Db × Resp) :=
  if ¬ validate_csrf stored f.csrf_token then Except.ok (db, Resp.clientError 400)
  else
    match formDate f.contract_start with
    | Except.error e => Except.error e
    | Except.ok c_start =>
      match formDate f.contract_end with
      | Except.error e => Except.error e
      | Except.ok c_end =>
        match parse_ram_mb f.ram_mb with
        | Except.error e => Except.error e
        | Except.ok parsed_ram =>
          match parse_storage_gb f.storage_gb with
          | Except.error e => Except.error e
          | Except.ok parsed_storage =>
            let parsed_price := (parse_decimal f.price).getD 0
            let enc_pwd := if f.mgmt_password ≠ "" then encrypt_secret enabled f.mgmt_password else none
            let mgmt_url_clean := cleanMgmtUrl f.mgmt_url
            let server : ServerRec := {
              id := new_id,
              owner_id := current_user.id,
              name := f.name,
              hostname := strOpt f.hostname,
              type := f.type,
              provider := f.provider,
              location := strOpt f.location,
              ipv4 := strOpt f.ipv4,
              ipv6 := strOpt f.ipv6,
              billing_period := f.billing_period,
              price := parsed_price,
              currency := f.currency,
              contract_start := c_start,
              contract_end := c_end,
              tags := strOpt f.tags,
              cpu_model := strOpt f.cpu_model,
              cpu_cores := if f.cpu_cores = 0 then none else some f.cpu_cores,
              ram_mb := parsed_ram,
              storage_gb := parsed_storage,
              storage_type := strOpt f.storage_type,
              mgmt_url := strOpt mgmt_url_clean,
              mgmt_user := strOpt f.mgmt_user,
              mgmt_password_encrypted := enc_pwd,
              ssh_user := strOpt f.ssh_user,
              ssh_key_hint := strOpt f.ssh_key_hint,
              notes := strOpt f.notes,
              created_at := now,
              updated_at := now,
              archived := false }
            Except.ok ({ db with servers := db.servers ++ [server] }, Resp.redirect ("/"))

/-- Models `update_server` (main.py 712-799): fetch and ownership check
first (redirect away on failure), then csrf check, then date parsing, the
password update guard ("only update mgmt password if a non-empty value was
submitted"), field assignments with the fallible parsers, and commit.  A
raised `ValueError` aborts the handler before the commit, so the database is
unchanged in the `Except.error` case. -/
def update_server (enabled : Bool) (stored : Option String) (server_id : Nat) (f : ServerForm)
    (current_user : UserRec) (now : Int) (db : Db) : Except Unit (Db × Resp) :=
  match db.servers.find? (fun s => decide (s.id = server_id)) with
  | none => Except.ok (db, Resp.redirect ("/"))
  | some server =>
    if server.owner_id ≠ current_user.id then Except.ok (db, Resp.redirect ("/"))
    else if ¬ validate_csrf stored f.csrf_token then Except.ok (db, Resp.clientError 400)
    else
      match formDate f.contract_start with
      | Except.error e => Except.error e
      | Except.ok c_start =>
        match formDate f.contract_end with
        | Except.error e => Except.error e
        | Except.ok c_end =>
          match parse_ram_mb f.ram_mb with
          | Except.error e => Except.error e
          | Except.ok parsed_ram =>
            match parse_storage_gb f.storage_gb with
            | Except.error e => Except.error e
            | Except.ok parsed_storage =>
              let mgmt_pwd_enc := if f.mgmt_password ≠ "" then encrypt_secret enabled f.mgmt_password else server.mgmt_password_encrypted
              let mgmt_url_clean := cleanMgmtUrl f.mgmt_url
              let parsed_price := (parse_decimal f.price).getD 0
              let updated : ServerRec := { server with
                name := f.name,
                provider := f.provider,
                hostname := strOpt f.hostname,
                type := f.type,
                location := strOpt f.location,
                ipv4 := strOpt f.ipv4,
                ipv6 := strOpt f.ipv6,
                billing_period := f.billing_period,
                price := parsed_price,
                currency := f.currency,
                contract_start := c_start,
                contract_end := c_end,
                cpu_model := strOpt f.cpu_model,
                cpu_cores := if f.cpu_cores = 0 then none else some f.cpu_cores,
                ram_mb := parsed_ram,
                storage_gb := parsed_storage,
                storage_type := strOpt f.storage_type,
                tags := strOpt f.tags,
                mgmt_url := strOpt mgmt_url_clean,
                mgmt_user := strOpt f.mgmt_user,
                mgmt_password_encrypted := mgmt_pwd_enc,
                ssh_user := strOpt f.ssh_user,
                ssh_key_hint := strOpt f.ssh_key_hint,
                notes := strOpt f.notes,
                updated_at := now }
              Except.ok
                ({ db with servers := db.servers.map (fun s => if s.id = server_id then updated else s) },
                  Resp.redirect (String.append ("/servers/") (toString server_id)))

/-! Password authenticator, from app/auth.py, and the registration handler
(the only caller of `hash_password` in app/main.py). -/

/-- Maximum effective bcrypt input length in bytes (app/auth.py line 10). -/
def BCRYPT_MAX_BYTES : Nat := 72

/-- UTF-8 encoding of one character as its byte values. -/
def utf8EncodeCharNat (c : Char) : List Nat :=
  let n := c.toNat
  if n < 128 then [n]
  else if n < 2048 then [192 + n / 64, 128 + n % 64]
  else if n < 65536 then [224 + n / 4096, 128 + (n / 64) % 64, 128 + n % 64]
  else [240 + n / 262144, 128 + (n / 4096) % 64, 128 + (n / 64) % 64, 128 + n % 64]

/-- Models Python `password.encode("utf-8")`. -/
def utf8Bytes (s : String) : List Nat :=
  s.data.flatMap utf8EncodeCharNat

/-- Modelled from the spec: the bcrypt one-way function behind passlib's
`CryptContext(schemes=["bcrypt"])` is third-party code; here it is an opaque
injective encoding of its input bytes.  The per-call random salt is omitted:
no claim under verification depends on hash non-determinism. -/
def bcryptDigest (bytes : List Nat) : String :=
  String.mk ('$' :: '2' :: 'b' :: '$' :: bytes.map Char.ofNat)

/-- Models `hash_password` (app/auth.py 14-16).  Modelled from the spec:
passlib's bcrypt handler silently truncates the password to bcrypt's 72-byte
effective limit before hashing (spec section 4.1 policy (a), the primitive's
native behavior, which the code delegates to). -/
def hash_password (password : String) : String :=
  bcryptDigest ((utf8Bytes password).take BCRYPT_MAX_BYTES)

/-- Models `password_too_long` (app/auth.py 24-29).  Encoding a Lean string
to UTF-8 cannot fail, so the `except` branch that returns True is
unreachable in the model. -/
def password_too_long (password : String) : Bool :=
  decide (BCRYPT_MAX_BYTES < (utf8Bytes password).length)

/-- Models the `register` handler (main.py 150-225): csrf check (rendering
the form again with status 400 on failure), the self-registration gate, the
password-confirmation and duplicate-username validations (status 400), then
user insertion — the first user becomes admin.  The auto-login session write
is outside the database state.  `register` never consults
`password_too_long`; the submitted password goes to `hash_password`
unconditionally. -/
def register (stored : Option String) (csrf_token : String) (username email password password_confirm : String)
    (allow_self_registration : Bool) (current_user : Option UserRec) (new_id : Nat) (db : Db) : Db × Resp :=
  if ¬ validate_csrf stored csrf_token then (db, Resp.page 400)
  else
    let user_count := db.users.length
    let gate : Bool := decide (0 < user_count) && (! allow_self_registration) &&
      (match current_user with
       | none => true
       | some u => ! u.is_admin)
    if gate then (db, Resp.redirect ("/"))
    else if password ≠ password_confirm then (db, Resp.page 400)
    else if (db.users.find? (fun u => decide (u.username = username))).isSome then (db, Resp.page 400)
    else
      let user : UserRec := {
        id := new_id,
        username := username,
        email := strOpt email,
        password_hash := hash_password password,
        is_active := true,
        is_admin := decide (user_count = 0) }
      ({ db with users := db.users ++ [user] }, Resp.redirect ("/"))

/-! Billing aggregate, from the stats loop of `admin_dashboard`
(main.py 378-392 and 431-439; `list_servers` lines 480-504 run the identical
loop).  The Python `set` of currency codes is modelled by a duplicate-free
list in insertion order; only its membership and size are ever consumed. -/

/-- The spec's `monthly_equivalent`: yearly prices are divided by 12, every
other billing period passes through unchanged. -/
def monthly_equivalent (s : ServerRec) : ℚ :=
  if s.billing_period = "yearly" then s.price / 12 else s.price

/-- The aggregation loop (main.py 378-388): skip unpriced entries, collect
the non-empty currency of each priced entry, add the monthly equivalent. -/
def billingLoop (total : ℚ) (curs : List String) : List ServerRec → ℚ × List String
  | [] => (total, curs)
  | s :: rest =>
    if s.price = 0 then billingLoop total curs rest
    else
      billingLoop
        (if s.billing_period = "yearly" then total + s.price / 12 else total + s.price)
        (if s.currency ≠ "" ∧ s.currency ∉ curs then curs ++ [s.currency] else curs)
        rest

/-- The aggregate entries of the `stats` dict (main.py 390-392 and 431-439):
total, the common currency when the currency set is a singleton, and the
mixed-currencies flag when it has more than one element. -/
structure AggregateStats where
  monthly_total : ℚ
  monthly_currency : Option String
  mixed_currencies : Bool
  deriving DecidableEq

/-- Runs the aggregation loop and packages the stats fields. -/
def aggregate_stats (servers : List ServerRec) : AggregateStats :=
  let r := billingLoop 0 [] servers
  { monthly_total := r.1,
    monthly_currency :=
      match r.2 with
      | [c] => some c
      | _ => none,
    mixed_currencies := decide (1 < r.2.length) }

/-- Declarative reading of the total for the refinement proof: the sum of
the monthly equivalents of the entries with a non-zero price. -/
def declMonthlyTotal (l : List ServerRec) : ℚ :=
  ((l.filter (fun s => decide (s.price ≠ 0))).map monthly_equivalent).sum

/-- The priced entries carrying a non-empty currency code, in order. -/
def pricedCurrencyList (l : List ServerRec) : List String :=
  (l.filter (fun s => decide (s.price ≠ 0 ∧ s.currency ≠ ""))).map (fun s => s.currency)

/-- Declarative reading of the currency set: the distinct currency codes
among priced entries. -/
def declCurrencies (l : List ServerRec) : Finset String :=
  (pricedCurrencyList l).toFinset

/-- A server row for the concrete billing examples of the spec: the given
price, currency and billing period over neutral remaining fields. -/
def mkExampleServer (price : ℚ) (currency billing : String) : ServerRec :=
  { id := 0, owner_id := 0, name := ("s"), hostname := none, type := ("vps"),
    provider := ("p"), location := none, ipv4 := none, ipv6 := none,
    billing_period := billing, price := price, currency := currency,
    contract_start := none, contract_end := none, tags := none, cpu_model := none,
    cpu_cores := none, ram_mb := none, storage_gb := none, storage_type := none,
    mgmt_url := none, mgmt_user := none, mgmt_password_encrypted := none,
    ssh_user := none, ssh_key_hint := none, notes := none, created_at := 0,
    updated_at := 0, archived := false }

/-- A 73-byte ASCII password, one byte over the bcrypt limit, for witnesses. -/
def longPassword : String :=
  "aaaaaaaaaaaaaaaaaaaaaaaaaaaaaaaaaaaaaaaaaaaaaaaaaaaaaaaaaaaaaaaaaaaaaaaaa"

/-- A concrete user row for witnesses. -/
def exampleUser : UserRec :=
  { id := 0, username := ("admin"), email := none, password_hash := ("h"),
    is_active := true, is_admin := true }

/-- Builds the user row that `register` inserts, for readable statements. -/
def mkUserRow (nid : Nat) (uname : String) (em : Option String) (ph : String) (admin : Bool) : UserRec :=
  { id := nid, username := uname, email := em, password_hash := ph,
    is_active := true, is_admin := admin }

/-- A concrete, fully-parseable server form for witnesses. -/
def exampleForm : ServerForm :=
  { name := ("srv"), provider := ("prov"), hostname := "", type := ("vps"),
    location := "", ipv4 := "", ipv6 := "", billing_period := ("monthly"),
    price := ("0"), currency := ("EUR"), contract_start := none, contract_end := none,
    cpu_model := "", cpu_cores := 0, ram_mb := "", storage_gb := "", storage_type := "",
    tags := "", mgmt_url := "", mgmt_user := "", mgmt_password := ("pw"),
    ssh_user := "", ssh_key_hint := "", notes := "", csrf_token := ("tok") }

/-- A concrete database with one server owned by `exampleUser`. -/
def exampleDb : Db :=
  { servers := [mkExampleServer 10 ("EUR") ("monthly")], users := [] }

/-- Database produced by the witness run of `create_server` (cipher
disabled). -/
def createResultDb : Db :=
  match create_server false (some ("tok")) exampleForm exampleUser 0 1 exampleDb with
  | Except.ok r => r.1
  | Except.error _ => exampleDb

/-- Database produced by the witness run of `update_server` (cipher
disabled). -/
def updateResultDb : Db :=
  match update_server false (some ("tok")) 0 exampleForm exampleUser 0 exampleDb with
  | Except.ok r => r.1
  | Except.error _ => exampleDb

/-! Helper lemmas. -/

/-- Decryption inverts encryption in the Fernet model. -/
theorem fernetDecrypt_fernetEncrypt (s : String) : fernetDecrypt (fernetEncrypt s) = some s := by
  simp [fernetDecrypt, fernetEncrypt, fernetHeader]

/-- An encrypted token is never the empty string. -/
theorem fernetEncrypt_ne_empty (s : String) : fernetEncrypt s ≠ "" := by
  intro h
  have h2 := congrArg String.data h
  simp [fernetEncrypt, fernetHeader] at h2

/-! Claim theorems. -/

/-- C1, counterexample: the claim quantifies over every plaintext string,
but with the cipher enabled `encrypt_secret ""` is already absent
(`if not plaintext` in app/utils.py line 36), so the round trip at the empty
string yields absent, not the empty string. -/
theorem spec_C1_counterexample :
    ¬ (Option.bind (encrypt_secret true ("")) (decrypt_secret true) = some ("")) := by
  decide

/-- C1, amended: for every non-empty plaintext `s`, with the cipher enabled
the round trip `decrypt_secret (encrypt_secret s)` returns `s`; with the
cipher disabled, `encrypt_secret s` is absent for every `s` and
`decrypt_secret t` is absent for every token `t`. -/
theorem spec_C1 (s t : String) (hs : s ≠ "") :
    Option.bind (encrypt_secret true s) (decrypt_secret true) = some s ∧
    encrypt_secret false s = none ∧
    decrypt_secret false t = none := by
  refine ⟨?_, ?_, ?_⟩
  · simp [encrypt_secret, decrypt_secret, hs, fernetEncrypt_ne_empty s,
      fernetDecrypt_fernetEncrypt]
  · simp [encrypt_secret]
  · simp [decrypt_secret]

/-- C1, witness at the concrete plaintext "pw" and token "x". -/
theorem spec_C1_witness :
    Option.bind (encrypt_secret true ("pw")) (decrypt_secret true) = some ("pw") ∧
    encrypt_secret false ("pw") = none ∧
    decrypt_secret false ("x") = none :=
  spec_C1 ("pw") ("x") (by decide)

/-- C3: the parsers are claimed never to raise, yet the raw-string regex
class `[\\.,]` admits a literal backslash as decimal separator, so on the
three-character input `1\5` group 1 is `1\5` and `float("1\5")` raises an
uncaught `ValueError` inside both parsers (the spec requires malformed input
to come back absent instead).  The remaining conjuncts record the parts of
the claim the code does satisfy: a leading minus sign and non-numeric text
are rejected with an absent result, without an exception. -/
theorem spec_C3_bug :
    parse_ram_mb ("1\\5") = Except.error () ∧
    parse_storage_gb ("1\\5") = Except.error () ∧
    parse_ram_mb ("-5") = Except.ok none ∧
    parse_storage_gb ("-5") = Except.ok none ∧
    parse_ram_mb ("abc") = Except.ok none ∧
    parse_storage_gb ("abc") = Except.ok none :=
  ⟨rfl, rfl, rfl, rfl, rfl, rfl⟩

/-- C4: a server with an end date is expired iff the date lies strictly
before today, expiring-soon iff the days until it lie in [0, 30]; a server
without an end date is neither; and the 30/31/yesterday boundary cases land
as the claim states. -/
theorem spec_C4 (today e : Int) :
    (server_is_expired (some e) today = true ↔ e < today) ∧
    (server_is_expiring_soon (some e) today = true ↔ 0 ≤ e - today ∧ e - today ≤ 30) ∧
    server_is_expired none today = false ∧
    server_is_expiring_soon none today = false ∧
    server_is_expiring_soon (some (today + 30)) today = true ∧
    server_is_expiring_soon (some (today + 31)) today = false ∧
    server_is_expired (some (today - 1)) today = true ∧
    server_is_expiring_soon (some (today - 1)) today = false := by
  refine ⟨?_, ?_, rfl, rfl, ?_, ?_, ?_, ?_⟩ <;>
    simp [server_is_expired, server_is_expiring_soon, days_until_contract_end]

/-- C6: decryption is absent exactly when the token is empty, the cipher is
disabled, or the token fails Fernet authentication; the model is a total
function (the Python `try` block catches `InvalidToken` and `ValueError`,
whose subclasses also cover the unicode encode/decode errors inside it), and
a garbage token is indistinguishable from "not decryptable". -/
theorem spec_C6 (enabled : Bool) (token : String) :
    (decrypt_secret enabled token = none ↔ token = "" ∨ enabled = false ∨ fernetDecrypt token = none) ∧
    decrypt_secret enabled ("") = none ∧
    decrypt_secret false token = none ∧
    decrypt_secret true ("not-a-valid-token") = none := by
  refine ⟨?_, by simp [decrypt_secret], by simp [decrypt_secret], rfl⟩
  unfold decrypt_secret
  by_cases h1 : token = ""
  · simp [h1]
  · by_cases h2 : enabled = false
    · simp [h1, h2]
    · simp [h1, h2]

/-- C8: the ram parser on the claim's examples — bare number defaulting to
gb, explicit gb/tb/mb units, a non-numeric string coming back absent — plus
case-insensitivity via lowering and the truncation of fractional results. -/
theorem spec_C8 :
    parse_ram_mb ("2") = Except.ok (some 2048) ∧
    parse_ram_mb ("2gb") = Except.ok (some 2048) ∧
    parse_ram_mb ("1tb") = Except.ok (some 1048576) ∧
    parse_ram_mb ("512mb") = Except.ok (some 512) ∧
    parse_ram_mb ("abc") = Except.ok none ∧
    parse_ram_mb ("2GB") = Except.ok (some 2048) ∧
    parse_ram_mb ("1TB") = Except.ok (some 1048576) ∧
    parse_ram_mb ("2.5mb") = Except.ok (some 2) ∧
    parse_ram_mb ("1.5tb") = Except.ok (some 1572864) ∧
    parse_ram_mb ("") = Except.ok none :=
  ⟨rfl, rfl, rfl, rfl, rfl, rfl, rfl, rfl, rfl, rfl⟩


/-- Bitwise OR of naturals is zero only when both are. -/
theorem nat_or_eq_zero_iff (x y : Nat) : x ||| y = 0 ↔ x = 0 ∧ y = 0 := by
  constructor
  · intro h
    constructor
    · apply Nat.eq_of_testBit_eq
      intro i
      have h2 := congrArg (fun n => Nat.testBit n i) h
      simp [Nat.testBit_or] at h2
      simp [h2.1, Nat.zero_testBit]
    · apply Nat.eq_of_testBit_eq
      intro i
      have h2 := congrArg (fun n => Nat.testBit n i) h
      simp [Nat.testBit_or] at h2
      simp [h2.2, Nat.zero_testBit]
  · rintro ⟨rfl, rfl⟩
    simp

theorem cdFold_eq_zero (ps : List (Char × Char)) (a : Nat) :
    ps.foldl (fun acc p => acc ||| (p.1.toNat ^^^ p.2.toNat)) a = 0 ↔
      a = 0 ∧ ∀ p ∈ ps, p.1.toNat ^^^ p.2.toNat = 0 := by
  induction ps generalizing a with
  | nil => simp
  | cons h t ih =>
    simp only [List.foldl_cons, ih, nat_or_eq_zero_iff, List.mem_cons]
    constructor
    · rintro ⟨⟨ha, hh⟩, ht⟩
      exact ⟨ha, fun p hp => hp.elim (fun e => e ▸ hh) (ht p)⟩
    · rintro ⟨ha, hall⟩
      exact ⟨⟨ha, hall h (Or.inl rfl)⟩, fun p hp => hall p (Or.inr hp)⟩

theorem zip_self_fst_eq_snd (l : List Char) : ∀ p ∈ l.zip l, p.1 = p.2 := by
  induction l with
  | nil => simp
  | cons h t ih =>
    intro p hp
    rw [List.zip_cons_cons] at hp
    rcases List.mem_cons.mp hp with hp | hp
    · rw [hp]
    · exact ih p hp

theorem compare_digest_eq (a b : String) : compare_digest a b = true ↔ a = b := by
  unfold compare_digest
  simp only [Bool.and_eq_true, decide_eq_true_eq]
  constructor
  · rintro ⟨hlen, hzip⟩
    have hall := ((cdFold_eq_zero (a.data.zip b.data) 0).mp hzip).2
    have hdlen : a.data.length = b.data.length := hlen
    apply String.ext
    apply List.ext_getElem hdlen
    intro i hi1 hi2
    have hlt : i < (a.data.zip b.data).length := by
      rw [List.length_zip]
      exact lt_min hi1 hi2
    have hz : (a.data.zip b.data)[i] = (a.data[i], b.data[i]) := List.getElem_zip
    have hmem : (a.data[i], b.data[i]) ∈ a.data.zip b.data := by
      rw [← hz]
      exact List.getElem_mem hlt
    have hx := hall _ hmem
    have hnat : (a.data[i]).toNat = (b.data[i]).toNat := Nat.xor_eq_zero.mp hx
    exact Char.eq_of_val_eq (UInt32.ext hnat)
  · rintro rfl
    refine ⟨rfl, ?_⟩
    refine (cdFold_eq_zero _ 0).mpr ⟨rfl, ?_⟩
    intro p hp
    rw [zip_self_fst_eq_snd a.data p hp]
    exact Nat.xor_self _

/-- On ASCII inputs the faithful model returns the boolean form: the
`TypeError` path is unreachable there, so the handler embeddings, which only
ever see the ASCII stored token, lose nothing by consuming the boolean
form. -/
theorem validate_csrf_py_agrees (stored : Option String) (token : String)
    (ha1 : (match stored with | none => true | some s => isAsciiStr s) = true)
    (ha2 : isAsciiStr token = true) :
    validate_csrf_py stored token = Except.ok (validate_csrf stored token) := by
  cases stored with
  | none => rfl
  | some s =>
    simp only [validate_csrf_py, validate_csrf]
    by_cases hs : s = ""
    · simp [hs]
    · by_cases ht : token = ""
      · simp [hs, ht]
      · simp only at ha1
        simp [hs, ht, compare_digest_py, ha1, ha2]

/-- C7, counterexample: the claim asserts a boolean return ("otherwise it
returns true iff the supplied token equals the stored token") for every
supplied token, but with an ASCII stored token and the non-ASCII supplied
token "é" — a reachable form input — `secrets.compare_digest` raises
`TypeError` ("comparing strings with non-ASCII characters is not
supported"), which `validate_csrf` does not catch, so the program answers
with an uncaught exception instead of a boolean. -/
theorem spec_C7_counterexample :
    validate_csrf_py (some ("tok")) ("é") = Except.error () :=
  rfl

/-- C7, amended: validation returns false when no token is stored (absent
key or empty stored string) or none is supplied; otherwise, provided the
stored and the supplied token are ASCII (on a non-ASCII argument the
underlying `secrets.compare_digest` raises `TypeError`, which escapes
uncaught), it returns true exactly on equality of supplied and stored
token; and the comparison cost of the constant-time walk depends on the two
lengths alone, never on the contents (no early exit on a mismatching
byte). -/
theorem spec_C7 (stored : Option String) (s token a b : String)
    (h1 : s ≠ "") (h2 : token ≠ "")
    (ha1 : isAsciiStr s = true) (ha2 : isAsciiStr token = true) :
    validate_csrf_py none token = Except.ok false ∧
    validate_csrf_py (some ("")) token = Except.ok false ∧
    validate_csrf_py stored ("") = Except.ok false ∧
    (validate_csrf_py (some s) token = Except.ok true ↔ s = token) ∧
    compare_digest_steps a b = min a.length b.length := by
  refine ⟨rfl, rfl, ?_, ?_, ?_⟩
  · cases stored with
    | none => rfl
    | some s2 => simp [validate_csrf_py]
  · simp [validate_csrf_py, compare_digest_py, h1, h2, ha1, ha2, compare_digest_eq]
  · show (a.data.zip b.data).length = min a.length b.length
    simp [List.length_zip]

/-- C7, witness at an ASCII stored token "tok", a non-matching and an empty
supplied token, and a concrete cost instance. -/
theorem spec_C7_witness :
    validate_csrf_py none ("x") = Except.ok false ∧
    validate_csrf_py (some ("")) ("x") = Except.ok false ∧
    validate_csrf_py (some ("tok")) ("") = Except.ok false ∧
    (validate_csrf_py (some ("tok")) ("x") = Except.ok true ↔ ("tok" : String) = ("x")) ∧
    compare_digest_steps ("ab") ("abcd") = min ("ab" : String).length ("abcd" : String).length :=
  spec_C7 (some ("tok")) ("tok") ("x") ("ab") ("abcd") (by decide) (by decide) (by decide) (by decide)


/-- Total of the billing loop: the running total plus the declarative sum. -/
theorem billingLoop_fst : ∀ (l : List ServerRec) (total : ℚ) (curs : List String),
    (billingLoop total curs l).1 = total + declMonthlyTotal l := by
  intro l
  induction l with
  | nil =>
    intro t c
    simp [billingLoop, declMonthlyTotal]
  | cons s rest ih =>
    intro t c
    by_cases hp : s.price = 0
    · rw [show billingLoop t c (s :: rest) = billingLoop t c rest by simp [billingLoop, hp]]
      rw [ih]
      simp [declMonthlyTotal, List.filter_cons, hp]
    · rw [show billingLoop t c (s :: rest) =
          billingLoop (if s.billing_period = ("yearly") then t + s.price / 12 else t + s.price)
            (if s.currency ≠ "" ∧ s.currency ∉ c then c ++ [s.currency] else c) rest by
        simp [billingLoop, hp]]
      rw [ih]
      simp only [declMonthlyTotal, List.filter_cons, hp, decide_not]
      by_cases hy : s.billing_period = ("yearly")
      · simp [hy, monthly_equivalent]
        ring
      · simp [hy, monthly_equivalent]
        ring

theorem billingLoop_snd_mem : ∀ (l : List ServerRec) (total : ℚ) (curs : List String) (x : String),
    x ∈ (billingLoop total curs l).2 ↔ x ∈ curs ∨ x ∈ pricedCurrencyList l := by
  intro l
  induction l with
  | nil =>
    intro t c x
    simp [billingLoop, pricedCurrencyList]
  | cons s rest ih =>
    intro t c x
    by_cases hp : s.price = 0
    · rw [show billingLoop t c (s :: rest) = billingLoop t c rest by simp [billingLoop, hp]]
      rw [ih]
      simp [pricedCurrencyList, List.filter_cons, hp]
    · rw [show billingLoop t c (s :: rest) =
          billingLoop (if s.billing_period = ("yearly") then t + s.price / 12 else t + s.price)
            (if s.currency ≠ "" ∧ s.currency ∉ c then c ++ [s.currency] else c) rest by
        simp [billingLoop, hp]]
      rw [ih]
      by_cases hc : s.currency = ""
      · have hcond : ¬(s.currency ≠ "" ∧ s.currency ∉ c) := by tauto
        rw [if_neg hcond]
        simp [hc, pricedCurrencyList, List.filter_cons, hp]
      · by_cases hm : s.currency ∈ c
        · have hcond : ¬(s.currency ≠ "" ∧ s.currency ∉ c) := by tauto
          rw [if_neg hcond]
          simp [hp, hc, pricedCurrencyList, List.filter_cons]
          constructor
          · tauto
          · rintro (h | h | h)
            · tauto
            · subst h
              tauto
            · tauto
        · have hcond : s.currency ≠ "" ∧ s.currency ∉ c := ⟨hc, hm⟩
          rw [if_pos hcond]
          simp [hp, hc, pricedCurrencyList, List.filter_cons, List.mem_append]
          tauto

theorem billingLoop_snd_nodup : ∀ (l : List ServerRec) (total : ℚ) (curs : List String),
    curs.Nodup → (billingLoop total curs l).2.Nodup := by
  intro l
  induction l with
  | nil =>
    intro t c h
    simpa [billingLoop] using h
  | cons s rest ih =>
    intro t c h
    by_cases hp : s.price = 0
    · rw [show billingLoop t c (s :: rest) = billingLoop t c rest by simp [billingLoop, hp]]
      exact ih t c h
    · rw [show billingLoop t c (s :: rest) =
          billingLoop (if s.billing_period = ("yearly") then t + s.price / 12 else t + s.price)
            (if s.currency ≠ "" ∧ s.currency ∉ c then c ++ [s.currency] else c) rest by
        simp [billingLoop, hp]]
      apply ih
      by_cases hcond : s.currency ≠ "" ∧ s.currency ∉ c
      · rw [if_pos hcond]
        simp [List.nodup_append, h, hcond.2]
      · rw [if_neg hcond]
        exact h

theorem billingLoop_snd_toFinset (l : List ServerRec) :
    ((billingLoop 0 [] l).2).toFinset = declCurrencies l := by
  apply Finset.ext
  intro x
  simp [List.mem_toFinset, billingLoop_snd_mem, declCurrencies]

theorem billingLoop_snd_length (l : List ServerRec) :
    ((billingLoop 0 [] l).2).length = (declCurrencies l).card := by
  rw [← billingLoop_snd_toFinset l]
  exact (List.toFinset_card_of_nodup (billingLoop_snd_nodup l 0 [] List.nodup_nil)).symm

/-- C5: the loop of the dashboard aggregate computes the declarative rollup —
the total is the sum of monthly equivalents over non-zero-priced entries
(yearly divided by 12, everything else passed through), the mixed flag holds
exactly when the priced entries carry more than one distinct non-empty
currency code, the common currency is reported exactly when they carry
precisely one — and the spec's concrete examples: {10 EUR monthly, 120 EUR
yearly} totals 20 with common currency EUR, and adding a USD entry sets the
mixed flag and clears the common currency. -/
theorem spec_C5 (l : List ServerRec) (c : String) :
    (aggregate_stats l).monthly_total = declMonthlyTotal l ∧
    ((aggregate_stats l).mixed_currencies = true ↔ 1 < (declCurrencies l).card) ∧
    ((aggregate_stats l).monthly_currency = some c ↔ declCurrencies l = {c}) ∧
    aggregate_stats [mkExampleServer 10 ("EUR") ("monthly"), mkExampleServer 120 ("EUR") ("yearly")] =
      { monthly_total := 20, monthly_currency := some ("EUR"), mixed_currencies := false } ∧
    (aggregate_stats [mkExampleServer 10 ("EUR") ("monthly"), mkExampleServer 120 ("EUR") ("yearly"),
        mkExampleServer 5 ("USD") ("monthly")]).mixed_currencies = true ∧
    (aggregate_stats [mkExampleServer 10 ("EUR") ("monthly"), mkExampleServer 120 ("EUR") ("yearly"),
        mkExampleServer 5 ("USD") ("monthly")]).monthly_currency = none := by
  refine ⟨?_, ?_, ?_, ?_, ?_, ?_⟩
  · show (billingLoop 0 [] l).1 = declMonthlyTotal l
    rw [billingLoop_fst]
    ring
  · show decide (1 < (billingLoop 0 [] l).2.length) = true ↔ 1 < (declCurrencies l).card
    rw [decide_eq_true_eq, billingLoop_snd_length]
  · have hnd := billingLoop_snd_nodup l 0 [] List.nodup_nil
    have htf := billingLoop_snd_toFinset l
    show (match (billingLoop 0 [] l).2 with
          | [c0] => some c0
          | _ => none) = some c ↔ declCurrencies l = {c}
    rcases hL : (billingLoop 0 [] l).2 with _ | ⟨a, _ | ⟨b, u⟩⟩
    · rw [hL] at htf
      have hdecl : declCurrencies l = ∅ := by simpa using htf.symm
      rw [hdecl]
      constructor
      · intro h
        simp at h
      · intro h
        exact absurd h.symm (Finset.singleton_ne_empty c)
    · rw [hL] at htf
      have hdecl : declCurrencies l = {a} := by simpa using htf.symm
      rw [hdecl]
      constructor
      · intro h
        have ha : a = c := by simpa using h
        rw [ha]
      · intro h
        have ha : a = c := Finset.singleton_injective h
        simpa using ha
    · rw [hL] at htf hnd
      constructor
      · intro h
        simp at h
      · intro h
        have hcard := congrArg Finset.card (htf.trans h)
        rw [List.toFinset_card_of_nodup hnd] at hcard
        simp at hcard
  · simp +decide [aggregate_stats, billingLoop, mkExampleServer]
    norm_num
  · simp +decide [aggregate_stats, billingLoop, mkExampleServer]
  · simp +decide [aggregate_stats, billingLoop, mkExampleServer]


/-- C9: the single hashing call of the system (registration) applies policy
(a) uniformly — the hashing path truncates to the first 72 UTF-8 bytes and
never rejects by length: for any over-long password, `password_too_long`
holds but is never consulted (app/main.py does not call it), the produced
hash is the hash of the truncated bytes, and a registration with that
password succeeds and stores exactly that hash. -/
theorem spec_C9 (p : String) (stored : Option String) (tok uname em : String)
    (allow : Bool) (cu : Option UserRec) (nid : Nat) (db : Db)
    (hlong : BCRYPT_MAX_BYTES < (utf8Bytes p).length)
    (hc : validate_csrf stored tok = true)
    (hdb : db.users = []) :
    password_too_long p = true ∧
    hash_password p = bcryptDigest ((utf8Bytes p).take 72) ∧
    register stored tok uname em p p allow cu nid db =
      ({ db with users := [mkUserRow nid uname (strOpt em) (bcryptDigest ((utf8Bytes p).take 72)) true] },
        Resp.redirect ("/")) := by
  refine ⟨?_, rfl, ?_⟩
  · simp [password_too_long]
    exact hlong
  · simp [register, hc, hdb, hash_password, mkUserRow, BCRYPT_MAX_BYTES]

/-- C9, witness at a 73-byte password on an empty database. -/
theorem spec_C9_witness :
    password_too_long longPassword = true ∧
    hash_password longPassword = bcryptDigest ((utf8Bytes longPassword).take 72) ∧
    register (some ("t")) ("t") ("u") ("") longPassword longPassword false none 1 ⟨[], []⟩ =
      ({ servers := ([] : List ServerRec), users := [mkUserRow 1 ("u") (strOpt ("")) (bcryptDigest ((utf8Bytes longPassword).take 72)) true] },
        Resp.redirect ("/")) :=
  spec_C9 longPassword (some ("t")) ("t") ("u") ("") false none 1 ⟨[], []⟩
    (by decide) (by decide) rfl

/-- C2: with an invalid or missing csrf token, each of the five mutating
handlers returns the database unchanged; toggle/archive/unarchive/create
reject with the 400 client error outright, and update either rejects with
400 or redirects away untouched (its not-found/not-owner guard runs before
the csrf check), rejecting with 400 whenever the target server exists and is
owned by the caller. -/
theorem spec_C2 (stored : Option String) (token : String) (uid sid : Nat) (cu : UserRec)
    (now : Int) (nid : Nat) (enabled : Bool) (f : ServerForm) (db : Db)
    (h : validate_csrf stored token = false)
    (h2 : validate_csrf stored f.csrf_token = false) :
    toggle_user_active stored token uid cu db = (db, Resp.clientError 400) ∧
    archive_server stored token sid cu now db = (db, Resp.clientError 400) ∧
    unarchive_server stored token sid cu now db = (db, Resp.clientError 400) ∧
    create_server enabled stored f cu now nid db = Except.ok (db, Resp.clientError 400) ∧
    (update_server enabled stored sid f cu now db = Except.ok (db, Resp.clientError 400) ∨
      update_server enabled stored sid f cu now db = Except.ok (db, Resp.redirect ("/"))) ∧
    ((db.servers.find? (fun s => decide (s.id = sid))).isSome = true →
      (db.servers.find? (fun s => decide (s.id = sid))).all (fun s => decide (s.owner_id = cu.id)) = true →
      update_server enabled stored sid f cu now db = Except.ok (db, Resp.clientError 400)) := by
  refine ⟨?_, ?_, ?_, ?_, ?_, ?_⟩
  · simp [toggle_user_active, h]
  · simp [archive_server, h]
  · simp [unarchive_server, h]
  · simp [create_server, h2]
  · rcases hf : db.servers.find? (fun s => decide (s.id = sid)) with _ | s
    · right
      simp [update_server, hf]
    · by_cases ho : s.owner_id = cu.id
      · left
        simp [update_server, hf, ho, h2]
      · right
        simp [update_server, hf, ho]
  · intro hsome hall
    rcases hf : db.servers.find? (fun s => decide (s.id = sid)) with _ | s
    · rw [hf] at hsome
      simp at hsome
    · rw [hf] at hall
      simp [Option.all] at hall
      simp [update_server, hf, hall, h2]

/-- C2, witness with no stored session token against a one-server database
whose server is owned by the calling user. -/
theorem spec_C2_witness :
    toggle_user_active none ("x") 0 exampleUser exampleDb = (exampleDb, Resp.clientError 400) ∧
    archive_server none ("x") 0 exampleUser 0 exampleDb = (exampleDb, Resp.clientError 400) ∧
    unarchive_server none ("x") 0 exampleUser 0 exampleDb = (exampleDb, Resp.clientError 400) ∧
    create_server true none exampleForm exampleUser 0 1 exampleDb = Except.ok (exampleDb, Resp.clientError 400) ∧
    (update_server true none 0 exampleForm exampleUser 0 exampleDb = Except.ok (exampleDb, Resp.clientError 400) ∨
      update_server true none 0 exampleForm exampleUser 0 exampleDb = Except.ok (exampleDb, Resp.redirect ("/"))) ∧
    ((exampleDb.servers.find? (fun s => decide (s.id = 0))).isSome = true →
      (exampleDb.servers.find? (fun s => decide (s.id = 0))).all (fun s => decide (s.owner_id = exampleUser.id)) = true →
      update_server true none 0 exampleForm exampleUser 0 exampleDb = Except.ok (exampleDb, Resp.clientError 400)) :=
  spec_C2 none ("x") 0 0 exampleUser 0 1 true exampleForm exampleDb rfl rfl


/-- The update handler's success redirect location never equals the root
redirect of its not-found and not-owner paths. -/
theorem servers_path_ne_root (t : String) : String.append ("/servers/") t ≠ ("/") := by
  intro h
  have h3 : (String.append ("/servers/") t).data = ("/servers/" : String).data ++ t.data := by
    cases t
    rfl
  have h2 : (String.append ("/servers/") t).data = ("/" : String).data := congrArg String.data h
  rw [h3] at h2
  simp at h2

/-- C10: after a committed create, the stored management-password column of
the new row is exactly `encrypt_secret` of the submitted password when one
was submitted and absent otherwise; after a committed update, the target
row's column is `encrypt_secret` of the submitted password when one was
submitted and the previously stored value otherwise, with every other row
untouched; and with the cipher disabled a non-empty submitted password is
stored as absent — a plaintext management password is never persisted. -/
theorem spec_C10 (enabled : Bool) (stored : Option String) (f : ServerForm) (cu : UserRec)
    (now : Int) (nid sid : Nat) (db db2 db3 : Db)
    (hcr : create_server enabled stored f cu now nid db = Except.ok (db2, Resp.redirect ("/")))
    (hup : update_server enabled stored sid f cu now db =
      Except.ok (db3, Resp.redirect (String.append ("/servers/") (toString sid)))) :
    db2.servers.map (fun s => s.mgmt_password_encrypted) =
      db.servers.map (fun s => s.mgmt_password_encrypted) ++
        [if f.mgmt_password ≠ "" then encrypt_secret enabled f.mgmt_password else none] ∧
    db3.servers.map (fun s => s.mgmt_password_encrypted) =
      db.servers.map (fun s =>
        if s.id = sid then
          (if f.mgmt_password ≠ "" then encrypt_secret enabled f.mgmt_password
           else ((db.servers.find? (fun t => decide (t.id = sid))).map
              (fun t => t.mgmt_password_encrypted)).getD none)
        else s.mgmt_password_encrypted) ∧
    (enabled = false → f.mgmt_password ≠ "" →
      db2.servers.map (fun s => s.mgmt_password_encrypted) =
        db.servers.map (fun s => s.mgmt_password_encrypted) ++ [none]) := by
  have hmap2 : db2.servers.map (fun s => s.mgmt_password_encrypted) =
      db.servers.map (fun s => s.mgmt_password_encrypted) ++
        [if f.mgmt_password ≠ "" then encrypt_secret enabled f.mgmt_password else none] := by
    simp only [create_server] at hcr
    split at hcr
    · simp at hcr
    · split at hcr
      · simp at hcr
      · split at hcr
        · simp at hcr
        · split at hcr
          · simp at hcr
          · split at hcr
            · simp at hcr
            · simp only [Except.ok.injEq, Prod.mk.injEq] at hcr
              obtain ⟨h1, -⟩ := hcr
              subst h1
              simp
  refine ⟨hmap2, ?_, ?_⟩
  · rcases hf : db.servers.find? (fun t => decide (t.id = sid)) with _ | server
    · simp only [update_server, hf] at hup
      simp only [Except.ok.injEq, Prod.mk.injEq, Resp.redirect.injEq] at hup
      exact absurd hup.2.symm (servers_path_ne_root _)
    · simp only [update_server, hf] at hup
      split at hup
      · simp only [Except.ok.injEq, Prod.mk.injEq, Resp.redirect.injEq] at hup
        exact absurd hup.2.symm (servers_path_ne_root _)
      · split at hup
        · simp at hup
        · split at hup
          · simp at hup
          · split at hup
            · simp at hup
            · split at hup
              · simp at hup
              · split at hup
                · simp at hup
                · simp only [Except.ok.injEq, Prod.mk.injEq] at hup
                  obtain ⟨h1, -⟩ := hup
                  subst h1
                  rw [hf]
                  simp only [List.map_map]
                  apply List.map_congr_left
                  intro s hs
                  by_cases hid : s.id = sid
                  · simp [hid]
                  · simp [hid]
  · intro he hp
    rw [hmap2, he]
    simp [hp, encrypt_secret]

/-- C10, witness: concrete create and update runs with the cipher disabled
and a non-empty submitted password; the stored column is absent. -/
theorem spec_C10_witness :
    createResultDb.servers.map (fun s => s.mgmt_password_encrypted) =
      exampleDb.servers.map (fun s => s.mgmt_password_encrypted) ++
        [if exampleForm.mgmt_password ≠ "" then encrypt_secret false exampleForm.mgmt_password else none] ∧
    updateResultDb.servers.map (fun s => s.mgmt_password_encrypted) =
      exampleDb.servers.map (fun s =>
        if s.id = 0 then
          (if exampleForm.mgmt_password ≠ "" then encrypt_secret false exampleForm.mgmt_password
           else ((exampleDb.servers.find? (fun t => decide (t.id = 0))).map
              (fun t => t.mgmt_password_encrypted)).getD none)
        else s.mgmt_password_encrypted) ∧
    (false = false → exampleForm.mgmt_password ≠ "" →
      createResultDb.servers.map (fun s => s.mgmt_password_encrypted) =
        exampleDb.servers.map (fun s => s.mgmt_password_encrypted) ++ [none]) :=
  spec_C10 false (some ("tok")) exampleForm exampleUser 0 1 0 exampleDb
    createResultDb updateResultDb rfl rfl
